import Mathlib

/-
  Verification of the joyfl core runtime (a minimal Joy dialect).

  Shallow embedding of the Python sources under src/src/joyfl/:
    types.py, combinators.py, interpreter.py, linker.py, library.py,
    builtins.py, loader.py, operators.py.

  Machine integers are modelled as Int (Python ints are arbitrary precision).
  Python floats are modelled as a tagged constructor whose payload is the exact
  rational handed to the host float conversion; IEEE-754 rounding itself is not
  modelled (no claim here depends on rounding, only on the kind of the result).
  Fallible code returns Except; a raised Python exception is an `.error`.
-/

namespace Joyfl

/-- Tags for Operation objects that can appear inside value lists (linked
quotations are lists of Operations) or in the items `comb_step` reports
for the queue.  `step` is the Operation record for the combinator
`comb_step` (combinators.py:38), which re-schedules itself; `add` is the
Operation record for the wrapped native function `op_add`
(operators.py:15). -/
inductive OpK where
  | step
  | add
deriving DecidableEq, Repr

/-- Python exception kinds relevant to the embedded code, split by whether
they are JoyError subclasses (errors.py): `JoyStackError` is a JoyError;
`TypeError` raised by the host for a bad call (unexpected or missing
keyword argument) and `ValueError` are not. -/
inductive PyErr where
  | joyStackError
  | hostTypeError
  | valueError
deriving DecidableEq, Repr

/-- `except JoyError` catches exactly the JoyError subclasses. -/
def isJoyError : PyErr → Bool
  | .joyStackError => true
  | .hostTypeError => false
  | .valueError => false

/-- The dynamic value universe of types.py: ints, bools, floats, rationals,
strings, byte-string symbols, lists (also used as quotations), struct
instances, captured error objects, and Operation objects (which the
interpreter queue treats as executable, everything else as a literal). -/
inductive JVal where
  | intv (n : Int)
  | boolv (b : Bool)
  | floatv (q : Rat)
  | fracv (q : Rat)
  | strv (s : String)
  | symv (s : String)
  | listv (items : List JVal)
  | structv (typename : String) (fields : List JVal)
  | errv (e : PyErr)
  | opv (k : OpK)

/-- The persistent stack of types.py: `Stack` is a `(tail, head)` cell with a
distinguished empty stack `nil`. -/
inductive StV where
  | nil
  | cell (tail : StV) (head : JVal)

/-- Push a list of values left-to-right onto a stack (first element ends up
deepest, last element on top), the order convention of `Stack.pushed`. -/
def StV.pushAll : StV → List JVal → StV
  | s, [] => s
  | s, v :: rest => StV.pushAll (StV.cell s v) rest

/-- Errors raised by combinators/functions (errors.py). -/
inductive JErr where
  | stackError
  | nameError
deriving DecidableEq, Repr

/-- `comb_step` (combinators.py:38-55).  Pops the quotation (top) and the
list (second); on an empty list returns the remaining stack untouched;
otherwise reports the items it prepends to the queue, in order:
head-of-list, the quotation contents, tail-of-list (as a list literal), the
quotation (as a list literal), and the `step` operation itself. -/
def comb_step : StV → Except JErr (List JVal × StV)
  | .nil => .error .stackError
  | .cell .nil _ => .error .stackError
  | .cell (.cell tail values) program =>
    match values with
    | .listv vs =>
      match program with
      | .listv prog =>
        match vs with
        | [] => .ok ([], tail)
        | v :: vt => .ok (v :: (prog ++ [.listv vt, .listv prog, .opv .step]), tail)
      | _ => .error .stackError
    | _ => .error .stackError

/-! ### Struct types (types.py StructMeta, combinators.py comb_struct / comb_unstruct) -/

/-- Python dict lookup over an association list (`d.get(k)`). -/
def alook {κ α : Type} [DecidableEq κ] (k : κ) : List (κ × α) → Option α
  | [] => none
  | (k', v) :: rest => if k = k' then some v else alook k rest

/-- One field descriptor of a Joy TYPEDEF: an optional label, an optional
surface type name, and whether the field carries a quotation stack-effect
(`field.get("quote")`). -/
structure SField where
  label : Option String
  ftype : Option String
  fquote : Bool

/-- Host types that `TYPE_NAME_MAP` (types.py:51) can map a surface type name
to, plus `objT` for the `object` default of `_get_expected_python_type_for_field`. -/
inductive PyType where
  | pint
  | pfloat
  | pbool
  | pbytes
  | pstr
  | pnumber
  | pfraction
  | plist
  | pstack
  | pany
  | objT
deriving DecidableEq

/-- `TYPE_NAME_MAP.get(type_name, object)` on a lower-cased name. -/
def nameToType (s : String) : PyType :=
  if s = "int" ∨ s = "integer" then .pint
  else if s = "float" ∨ s = "double" then .pfloat
  else if s = "bool" ∨ s = "boolean" then .pbool
  else if s = "symbol" ∨ s = "sym" then .pbytes
  else if s = "str" ∨ s = "string" ∨ s = "text" then .pstr
  else if s = "number" then .pnumber
  else if s = "fraction" ∨ s = "fract" then .pfraction
  else if s = "list" ∨ s = "array" ∨ s = "quot" then .plist
  else if s = "stack" then .pstack
  else if s = "any" ∨ s = "" then .pany
  else .objT

/-- `str.lower()` as used on surface type names (ASCII identifiers). -/
def pyLower (s : String) : String := ⟨s.data.map Char.toLower⟩

/-- `_get_expected_python_type_for_field` (combinators.py:100-104). -/
def expectedTypeForField (f : SField) : PyType :=
  if f.fquote then .plist else nameToType (pyLower (f.ftype.getD ""))

/-- Python `isinstance` over the modelled value universe.  `bool` is a
subclass of `int`, and int/float/Fraction/bool all register as `Number`. -/
def jinstance : JVal → PyType → Bool
  | .intv _, .pint => true
  | .boolv _, .pint => true
  | .floatv _, .pfloat => true
  | .boolv _, .pbool => true
  | .symv _, .pbytes => true
  | .strv _, .pstr => true
  | .intv _, .pnumber => true
  | .boolv _, .pnumber => true
  | .floatv _, .pnumber => true
  | .fracv _, .pnumber => true
  | .fracv _, .pfraction => true
  | .listv _, .plist => true
  | _, _ => false

/-- The per-field check of comb_struct: skipped when the expected type is
`object` or `Any`, otherwise an isinstance test. -/
def fieldOk (f : SField) (v : JVal) : Bool :=
  match expectedTypeForField f with
  | .objT => true
  | .pany => true
  | t => jinstance v t

/-- The popping loop of comb_struct (combinators.py:128-137): walk the given
field descriptors (the caller passes them already reversed), popping one
value per field from the stack, type-checking it, and collecting the values
in popped order. -/
def popFields : List SField → StV → Except JErr (StV × List JVal)
  | [], s => .ok (s, [])
  | f :: rest, s =>
    match s with
    | .nil => .error .stackError
    | .cell cur v =>
      if fieldOk f v then
        (popFields rest cur).map (fun p => (p.1, v :: p.2))
      else .error .stackError

/-- `comb_struct` (combinators.py:106-140): pop the type symbol, look the
struct type up, pop one value per field right-to-left (top-most value is
the last declared field), type-check each, and push one struct instance
whose fields are in declaration order. -/
def comb_struct (structTypes : List (String × List SField)) : StV → Except JErr StV
  | .nil => .error .stackError
  | .cell base top =>
    match top with
    | .symv t =>
      match alook t structTypes with
      | none => .error .nameError
      | some fields =>
        match popFields fields.reverse base with
        | .error e => .error e
        | .ok (cur, vals) => .ok (.cell cur (.structv t vals.reverse))
    | _ => .error .stackError

/-- `comb_unstruct` (combinators.py:143-163): pop a struct instance, check
its registered arity, and push its fields in declaration order
(first-declared field deepest, last on top). -/
def comb_unstruct (structTypes : List (String × List SField)) : StV → Except JErr StV
  | .nil => .error .stackError
  | .cell base top =>
    match top with
    | .structv t vals =>
      match alook t structTypes with
      | none => .error .nameError
      | some fields =>
        if vals.length = fields.length then .ok (StV.pushAll base vals)
        else .error .stackError
    | _ => .error .stackError

/-- Well-typedness of a value list against a field list in declaration
order (pairwise `fieldOk`, same length). -/
def typedAll : List SField → List JVal → Bool
  | [], [] => true
  | f :: fs, v :: vs => fieldOk f v && typedAll fs vs
  | _, _ => false

theorem typedAll_length : ∀ {fs : List SField} {vs : List JVal},
    typedAll fs vs = true → fs.length = vs.length := by
  intro fs
  induction fs with
  | nil => intro vs h; cases vs with
    | nil => rfl
    | cons v vt => simp [typedAll] at h
  | cons f ft ih => intro vs h; cases vs with
    | nil => simp [typedAll] at h
    | cons v vt =>
      simp only [typedAll, Bool.and_eq_true] at h
      simp [ih h.2]

theorem popFields_append (A B : List SField) :
    ∀ (s : StV), popFields (A ++ B) s =
      (popFields A s).bind (fun p =>
        (popFields B p.1).map (fun q => (q.1, p.2 ++ q.2))) := by
  induction A with
  | nil =>
    intro s
    simp only [List.nil_append, popFields, Except.bind]
    cases popFields B s with
    | error e => rfl
    | ok q => simp [Except.map]
  | cons f ft ih =>
    intro s
    cases s with
    | nil => rfl
    | cell cur v =>
      simp only [List.cons_append, popFields]
      by_cases hok : fieldOk f v = true
      · simp only [hok, if_true]
        rw [show ft.append B = ft ++ B from rfl, ih cur]
        cases popFields ft cur with
        | error e => rfl
        | ok p =>
          simp only [Except.bind, Except.map]
          cases popFields B p.1 with
          | error e => rfl
          | ok q => simp
      · simp [hok, Except.bind]

/-- Popping the reversed field list off a stack built by pushing the values
in declaration order recovers exactly those values (in popped = reversed
order) and the base stack. -/
theorem popFields_pushAll : ∀ (fs : List SField) (vs : List JVal) (S : StV),
    typedAll fs vs = true →
    popFields fs.reverse (StV.pushAll S vs) = .ok (S, vs.reverse) := by
  intro fs
  induction fs with
  | nil =>
    intro vs S h
    cases vs with
    | nil => rfl
    | cons v vt => simp [typedAll] at h
  | cons f ft ih =>
    intro vs S h
    cases vs with
    | nil => simp [typedAll] at h
    | cons v vt =>
      simp only [typedAll, Bool.and_eq_true] at h
      have hstep : StV.pushAll S (v :: vt) = StV.pushAll (StV.cell S v) vt := rfl
      rw [List.reverse_cons, hstep, popFields_append, ih vt (StV.cell S v) h.2]
      simp [popFields, Except.bind, Except.map, h.1]

/-- C5.  For every registered struct type T and declaration-ordered
well-typed values vs, `struct` on push('T, push(vn, ... push(v1, S)))
builds push(T-instance(v1..vn), S), `unstruct` explodes that instance back
to push(vn, ... push(v1, S)), and the composition is the identity on the
original stack below the type symbol. -/
theorem struct_unstruct_roundtrip (structTypes : List (String × List SField))
    (T : String) (fields : List SField) (vs : List JVal) (S : StV)
    (hreg : alook T structTypes = some fields)
    (htyped : typedAll fields vs = true) :
    comb_struct structTypes (.cell (StV.pushAll S vs) (.symv T))
      = .ok (.cell S (.structv T vs))
    ∧ comb_unstruct structTypes (.cell S (.structv T vs))
      = .ok (StV.pushAll S vs)
    ∧ (comb_struct structTypes (.cell (StV.pushAll S vs) (.symv T))).bind
        (comb_unstruct structTypes) = .ok (StV.pushAll S vs) := by
  have hs : comb_struct structTypes (.cell (StV.pushAll S vs) (.symv T))
      = .ok (.cell S (.structv T vs)) := by
    simp only [comb_struct, hreg]
    rw [popFields_pushAll fields vs S htyped]
    simp [List.reverse_reverse]
  have hu : comb_unstruct structTypes (.cell S (.structv T vs))
      = .ok (StV.pushAll S vs) := by
    simp only [comb_unstruct, hreg]
    rw [if_pos (typedAll_length htyped).symm]
  exact ⟨hs, hu, by rw [hs]; simpa using hu⟩

/-- Witness for C5 at the spec's MyPair :: a:int b:float with values 1 and
2.5 over the empty stack. -/
theorem struct_unstruct_roundtrip_witness :
    alook "MyPair" [("MyPair", [SField.mk (some "a") (some "int") false,
        SField.mk (some "b") (some "float") false])]
      = some [SField.mk (some "a") (some "int") false,
        SField.mk (some "b") (some "float") false]
    ∧ typedAll [SField.mk (some "a") (some "int") false,
        SField.mk (some "b") (some "float") false]
        [JVal.intv 1, JVal.floatv (5 / 2)] = true
    ∧ (comb_struct [("MyPair", [SField.mk (some "a") (some "int") false,
        SField.mk (some "b") (some "float") false])]
        (.cell (StV.pushAll .nil [JVal.intv 1, JVal.floatv (5 / 2)]) (.symv "MyPair"))).bind
        (comb_unstruct [("MyPair", [SField.mk (some "a") (some "int") false,
          SField.mk (some "b") (some "float") false])])
      = .ok (StV.pushAll .nil [JVal.intv 1, JVal.floatv (5 / 2)]) := by
  refine ⟨rfl, rfl, ?_⟩
  exact (struct_unstruct_roundtrip
    [("MyPair", [SField.mk (some "a") (some "int") false,
      SField.mk (some "b") (some "float") false])]
    "MyPair"
    [SField.mk (some "a") (some "int") false, SField.mk (some "b") (some "float") false]
    [JVal.intv 1, JVal.floatv (5 / 2)] .nil rfl rfl).2.2

/-!
### Linker body-population protocol (linker.py `_populate_joy_definitions`)

Python mutates `Operation` objects in place in pass 3 and the resulting
object graph is cyclic, so Operation objects live in an explicit store
addressed by allocation order (object identity), and an Execute operation
in a program refers to its record by address.  `quots` models
`lib.quotations` restricted to the `program` attribute (None while a
placeholder).  The bodies of the claim consist of sibling names only, so
`link_body` models exactly the `lib.get_quotation` arm of the resolution
chain of linker.py:66-90: the combinator/constant/factory tables are empty
for a fresh Library in this scenario and the earlier arms cannot fire for
these name tokens, while literal arms are never reached because the
quotation lookup succeeds after pass 1.
-/

/-- A program item: an Execute operation, referred to by the address of its
Operation record. -/
inductive LItem where
  | exe (id : Nat)

/-- An Operation record (types.py Operation with tag EXECUTE): the name it
was linked from, and its target program (`ptr`), null until resolved. -/
structure OpRec where
  name : String
  ptr : Option (List LItem)

/-- Linker state: the quotation table (name to `program`, None while a
placeholder), the store of allocated Operation records, and the next
address. -/
structure LState where
  quots : List (String × Option (List LItem))
  store : List (Nat × OpRec)
  next : Nat

/-- Python dict update-or-insert (`d[k] = v`). -/
def aset {κ α : Type} [DecidableEq κ] (k : κ) (v : α) : List (κ × α) → List (κ × α)
  | [] => [(k, v)]
  | (k', v') :: rest => if k = k' then (k, v) :: rest else (k', v') :: aset k v rest

/-- `link_body` (linker.py:40-93) restricted to name tokens resolved through
`lib.get_quotation`: each token found in the quotation table yields a fresh
Execute Operation whose `ptr` is the quotation's current `program` (possibly
still null for a forward reference); an unknown name raises JoyNameError. -/
def link_body : List String → LState → Except JErr (List LItem × LState)
  | [], st => .ok ([], st)
  | t :: rest, st =>
    match alook t st.quots with
    | some prog =>
      (link_body rest ⟨st.quots, aset st.next ⟨t, prog⟩ st.store, st.next + 1⟩).map
        (fun p => (LItem.exe st.next :: p.1, p.2))
    | none => .error .nameError

/-- Pass 1: register every sibling name as a placeholder quotation with a
null program. -/
def pass1 (defs : List (String × List String)) (st : LState) : LState :=
  defs.foldl (fun st d => ⟨aset d.1 none st.quots, st.store, st.next⟩) st

/-- Pass 2: link each body now that all sibling names are known, and store
the linked program on the quotation.  (On a JoyError the source removes all
sibling placeholders before re-raising; the error simply propagates here —
the claim concerns the success path.) -/
def pass2 : List (String × List String) → LState → Except JErr LState
  | [], st => .ok st
  | (key, toks) :: rest, st =>
    match link_body toks st with
    | .error e => .error e
    | .ok (prog, st') => pass2 rest ⟨aset key (some prog) st'.quots, st'.store, st'.next⟩

/-- `_fill_recursive_calls` on one item: an Operation whose `ptr` is still
null is patched in place with the (by now linked) program of the quotation
of the same name. -/
def fillItem (st : LState) (it : LItem) : LState :=
  match it with
  | .exe id =>
    match alook id st.store with
    | none => st
    | some r =>
      match r.ptr with
      | some _ => st
      | none =>
        match alook r.name st.quots with
        | none => st
        | some prog => ⟨st.quots, aset id ⟨r.name, prog⟩ st.store, st.next⟩

/-- Pass 3: walk each linked body and patch null Execute targets. -/
def pass3 (defs : List (String × List String)) (st : LState) : LState :=
  defs.foldl (fun st d =>
    match alook d.1 st.quots with
    | some (some prog) => prog.foldl fillItem st
    | _ => st) st

/-- `_populate_joy_definitions` (linker.py:96-125): the three passes. -/
def populate_joy_definitions (defs : List (String × List String)) (st : LState) :
    Except JErr LState :=
  (pass2 defs (pass1 defs st)).map (pass3 defs)

/-- C6.  Linking two sibling definitions that reference each other mutually
succeeds, and after the three passes the Execute operation that was a
forward reference (record 0, allocated with a null target while linking the
first body) points at the second definition's linked, non-null program, and
the other Execute operation points at the first definition's linked,
non-null program. -/
theorem mutual_recursion_linked (n1 n2 : String) (h : n1 ≠ n2) :
    ∃ st : LState,
      populate_joy_definitions [(n1, [n2]), (n2, [n1])] ⟨[], [], 0⟩ = .ok st
      ∧ alook n1 st.quots = some (some [LItem.exe 0])
      ∧ alook n2 st.quots = some (some [LItem.exe 1])
      ∧ alook 0 st.store = some ⟨n2, some [LItem.exe 1]⟩
      ∧ alook 1 st.store = some ⟨n1, some [LItem.exe 0]⟩ := by
  refine ⟨⟨[(n1, some [LItem.exe 0]), (n2, some [LItem.exe 1])],
    [(0, ⟨n2, some [LItem.exe 1]⟩), (1, ⟨n1, some [LItem.exe 0]⟩)], 2⟩, ?_, ?_, ?_, ?_, ?_⟩
  · simp [populate_joy_definitions, pass1, pass2, pass3, link_body, fillItem,
      alook, aset, Except.map, h, Ne.symm h]
  · simp [alook]
  · simp [alook, Ne.symm h]
  · simp [alook]
  · simp [alook]

/-- Witness for C6 with the spec's ping/pong module. -/
theorem mutual_recursion_linked_witness :
    ("ping" : String) ≠ "pong"
    ∧ (∃ st : LState,
        populate_joy_definitions [("ping", ["pong"]), ("pong", ["ping"])] ⟨[], [], 0⟩ = .ok st
        ∧ alook "ping" st.quots = some (some [LItem.exe 0])
        ∧ alook "pong" st.quots = some (some [LItem.exe 1])
        ∧ alook 0 st.store = some ⟨"pong", some [LItem.exe 1]⟩
        ∧ alook 1 st.store = some ⟨"ping", some [LItem.exe 0]⟩) :=
  ⟨by decide, mutual_recursion_linked "ping" "pong" (by decide)⟩

/-!
### Operator name derivation (loader.py get_python_name / get_joy_name)

Python `str.replace(old, new)` scans left to right replacing every
non-overlapping occurrence.  With a 1-character pattern this is a
character-wise expansion (`expandAll`); with a 2-character pattern it is
the windowed scan `g1`/`g2` below.  Both directions work on `List Char`.
-/

/-- `joy_name.replace('-', '_')` on one character. -/
def d2u (c : Char) : Char := if c = '-' then '_' else c

/-- `.replace('!', '_b')` on one character. -/
def e2 (c : Char) : List Char := if c = '!' then ['_', 'b'] else [c]

/-- `.replace('?', '_q')` on one character. -/
def e3 (c : Char) : List Char := if c = '?' then ['_', 'q'] else [c]

/-- Apply a character expansion to every character (Python `str.replace`
with a 1-character pattern). -/
def expandAll (f : Char → List Char) : List Char → List Char
  | [] => []
  | c :: rest => f c ++ expandAll f rest

/-- `get_python_name` (loader.py:20-22): prefix `op_`, then the three
replaces in source order. -/
def get_python_name (w : List Char) : List Char :=
  'o' :: 'p' :: '_' :: expandAll e3 (expandAll e2 (w.map d2u))

/-- `py_name.replace('_b', '!')`: leftmost non-overlapping 2-character scan. -/
def g1 : List Char → List Char
  | [] => []
  | [x] => [x]
  | x :: y :: rest =>
    if x = '_' ∧ y = 'b' then '!' :: g1 rest else x :: g1 (y :: rest)

/-- `.replace('_q', '?')`: leftmost non-overlapping 2-character scan. -/
def g2 : List Char → List Char
  | [] => []
  | [x] => [x]
  | x :: y :: rest =>
    if x = '_' ∧ y = 'q' then '?' :: g2 rest else x :: g2 (y :: rest)

/-- `.replace('_', '-')` on one character. -/
def u2d (c : Char) : Char := if c = '_' then '-' else c

/-- `get_joy_name` (loader.py:25-29): require the `op_` prefix (else raise
JoyModuleError), strip it, then the three replaces in source order. -/
def get_joy_name (p : List Char) : Except JErr (List Char) :=
  match p with
  | 'o' :: 'p' :: '_' :: rest => .ok ((g2 (g1 rest)).map u2d)
  | _ => .error .nameError

/-- Joy names for which the round trip can hold: no underscore anywhere,
and no dash immediately followed by `b` or `q` (such a dash becomes an
interior `_b`/`_q` which `get_joy_name` also converts, because the
replaces are not limited to trailing occurrences). -/
def dashOk : List Char → Bool
  | [] => true
  | d :: _ => d != 'b' && d != 'q'

def goodName : List Char → Bool
  | [] => true
  | c :: rest => (c != '_') && (c != '-' || dashOk rest) && goodName rest

theorem g1_cons (x : Char) (t : List Char) (hx : x ≠ '_') : g1 (x :: t) = x :: g1 t := by
  cases t with
  | nil => rfl
  | cons z t' => simp [g1, hx]

theorem g2_cons (x : Char) (t : List Char) (hx : x ≠ '_') : g2 (x :: t) = x :: g2 t := by
  cases t with
  | nil => rfl
  | cons z t' => simp [g2, hx]

theorem g1_cons_us (t : List Char) (ht : t.head? ≠ some 'b') :
    g1 ('_' :: t) = '_' :: g1 t := by
  cases t with
  | nil => rfl
  | cons z t' =>
    have hz : z ≠ 'b' := by simpa using ht
    simp [g1, hz]

theorem g2_cons_us (t : List Char) (ht : t.head? ≠ some 'q') :
    g2 ('_' :: t) = '_' :: g2 t := by
  cases t with
  | nil => rfl
  | cons z t' =>
    have hz : z ≠ 'q' := by simpa using ht
    simp [g2, hz]

/-- The forward translation of a name whose first character is not a bare
`b`/`q`/`_` never starts with `b` or `q`, and after the `_b` pass never
starts with `q`. -/
theorem forward_heads (w : List Char) (hgood : goodName w = true) (hdash : dashOk w = true) :
    (expandAll e3 (expandAll e2 (w.map d2u))).head? ≠ some 'b'
    ∧ (g1 (expandAll e3 (expandAll e2 (w.map d2u)))).head? ≠ some 'q' := by
  cases w with
  | nil => exact ⟨by simp [expandAll, g1], by simp [expandAll, g1]⟩
  | cons c w' =>
    have hcb : c ≠ 'b' := by
      simp only [dashOk, Bool.and_eq_true, bne_iff_ne] at hdash
      exact hdash.1
    have hcq : c ≠ 'q' := by
      simp only [dashOk, Bool.and_eq_true, bne_iff_ne] at hdash
      exact hdash.2
    have hcu : c ≠ '_' := by
      simp only [goodName, Bool.and_eq_true, bne_iff_ne] at hgood
      exact hgood.1.1
    by_cases h1 : c = '-'
    · subst h1
      have hF : expandAll e3 (expandAll e2 (('-' :: w').map d2u))
          = '_' :: expandAll e3 (expandAll e2 (w'.map d2u)) := by
        simp [expandAll, d2u, e2, e3]
      rw [hF]
      refine ⟨by simp, ?_⟩
      cases hF' : expandAll e3 (expandAll e2 (w'.map d2u)) with
      | nil => simp [g1]
      | cons z t' =>
        by_cases hz : z = 'b'
        · subst hz
          simp [g1]
        · simp [g1, hz]
    · by_cases h2 : c = '!'
      · subst h2
        have hF : expandAll e3 (expandAll e2 (('!' :: w').map d2u))
            = '_' :: 'b' :: expandAll e3 (expandAll e2 (w'.map d2u)) := by
          simp [expandAll, d2u, e2, e3]
        rw [hF]
        refine ⟨by simp, ?_⟩
        simp [g1]
      · by_cases h3 : c = '?'
        · subst h3
          have hF : expandAll e3 (expandAll e2 (('?' :: w').map d2u))
              = '_' :: 'q' :: expandAll e3 (expandAll e2 (w'.map d2u)) := by
            simp [expandAll, d2u, e2, e3]
          rw [hF]
          refine ⟨by simp, ?_⟩
          rw [g1_cons_us ('q' :: expandAll e3 (expandAll e2 (w'.map d2u))) (by simp)]
          simp
        · have hF : expandAll e3 (expandAll e2 ((c :: w').map d2u))
              = c :: expandAll e3 (expandAll e2 (w'.map d2u)) := by
            simp [expandAll, d2u, e2, e3, h1, h2, h3]
          rw [hF]
          refine ⟨by simpa using hcb, ?_⟩
          rw [g1_cons c _ hcu]
          simpa using hcq

/-- Round trip of the character-level translation on good names. -/
theorem back_of_forward (w : List Char) (h : goodName w = true) :
    (g2 (g1 (expandAll e3 (expandAll e2 (w.map d2u))))).map u2d = w := by
  induction w with
  | nil => simp [expandAll, g1, g2]
  | cons c rest ih =>
    simp only [goodName, Bool.and_eq_true, Bool.or_eq_true, bne_iff_ne] at h
    obtain ⟨⟨hcu, hdash⟩, hrest⟩ := h
    have ihr := ih hrest
    by_cases h1 : c = '-'
    · subst h1
      have hdash' : dashOk rest = true := by
        rcases hdash with hfalse | hok
        · exact absurd rfl hfalse
        · exact hok
      have hF : expandAll e3 (expandAll e2 (('-' :: rest).map d2u))
          = '_' :: expandAll e3 (expandAll e2 (rest.map d2u)) := by
        simp [expandAll, d2u, e2, e3]
      obtain ⟨hb, hq⟩ := forward_heads rest hrest hdash'
      rw [hF, g1_cons_us _ hb, g2_cons_us _ hq]
      simp only [List.map_cons, ihr]
      simp [u2d]
    · by_cases h2 : c = '!'
      · subst h2
        have hF : expandAll e3 (expandAll e2 (('!' :: rest).map d2u))
            = '_' :: 'b' :: expandAll e3 (expandAll e2 (rest.map d2u)) := by
          simp [expandAll, d2u, e2, e3]
        rw [hF]
        have hg1 : g1 ('_' :: 'b' :: expandAll e3 (expandAll e2 (rest.map d2u)))
            = '!' :: g1 (expandAll e3 (expandAll e2 (rest.map d2u))) := by
          simp [g1]
        rw [hg1, g2_cons '!' _ (by decide)]
        simp only [List.map_cons, ihr]
        simp [u2d]
      · by_cases h3 : c = '?'
        · subst h3
          have hF : expandAll e3 (expandAll e2 (('?' :: rest).map d2u))
              = '_' :: 'q' :: expandAll e3 (expandAll e2 (rest.map d2u)) := by
            simp [expandAll, d2u, e2, e3]
          rw [hF]
          have hg1 : g1 ('_' :: 'q' :: expandAll e3 (expandAll e2 (rest.map d2u)))
              = '_' :: 'q' :: g1 (expandAll e3 (expandAll e2 (rest.map d2u))) := by
            rw [g1_cons_us ('q' :: expandAll e3 (expandAll e2 (rest.map d2u))) (by simp)]
            rw [g1_cons 'q' _ (by decide)]
          rw [hg1]
          have hg2 : g2 ('_' :: 'q' :: g1 (expandAll e3 (expandAll e2 (rest.map d2u))))
              = '?' :: g2 (g1 (expandAll e3 (expandAll e2 (rest.map d2u)))) := by
            simp [g2]
          rw [hg2]
          simp only [List.map_cons, ihr]
          simp [u2d]
        · have hF : expandAll e3 (expandAll e2 ((c :: rest).map d2u))
              = c :: expandAll e3 (expandAll e2 (rest.map d2u)) := by
            simp [expandAll, d2u, e2, e3, h1, h2, h3]
          rw [hF, g1_cons c _ hcu, g2_cons c _ hcu]
          simp only [List.map_cons, ihr]
          simp [u2d, hcu]

/-- C9 (amended).  `get_joy_name` is a left inverse of `get_python_name`
for Joy names that contain no underscore and in which no dash is
immediately followed by `b` or `q`; the `_q`/`_b` to `?`/`!` conversion
applies to every occurrence, not only trailing ones, which is what forces
the restriction. -/
theorem joy_name_roundtrip (w : List Char) (h : goodName w = true) :
    get_joy_name (get_python_name w) = .ok w := by
  show Except.ok ((g2 (g1 (expandAll e3 (expandAll e2 (w.map d2u))))).map u2d) = .ok w
  rw [back_of_forward w h]

/-- Witness for C9 at the builtin name `equal?`. -/
theorem joy_name_roundtrip_witness :
    goodName ("equal?".data) = true
    ∧ get_joy_name (get_python_name ("equal?".data)) = .ok ("equal?".data) :=
  ⟨by decide, joy_name_roundtrip ("equal?".data) (by decide)⟩

/-- C9 counterexample to the claim as stated: the replaces are not limited
to trailing suffixes, so the Joy name `not-bad` maps to `op_not_bad` and
back to `not!ad`, not to `not-bad` — the composite is not the identity on
all Joy operation names. -/
theorem joy_name_claim_counterexample :
    get_joy_name (get_python_name ("not-bad".data)) = .ok ("not!ad".data)
    ∧ ¬ (get_joy_name (get_python_name ("not-bad".data)) = .ok ("not-bad".data)) := by
  constructor
  · rfl
  · intro h
    have h1 : get_joy_name (get_python_name ("not-bad".data)) = .ok ("not!ad".data) := rfl
    rw [h1] at h
    have h2 : ("not!ad".data) = ("not-bad".data) := by
      injection h
    exact absurd h2 (by decide)

/-!
### Operation equality (types.py Operation.__eq__, lines 79-83)

An Operation's `ptr` holds a native callable, a program list object, or
None.  Python `==` on callables is object identity; on lists it is deep
(element-wise) equality regardless of object identity; None is a
singleton.  Objects are modelled with an explicit identity (`objId` /
`id`) next to their contents, so that identity and deep equality can be
told apart.  Program-list contents are restricted to integer literals
here: the claim is about which of the two equalities the code uses, not
about the element values.
-/

/-- The Operation tag (`Operation.FUNCTION/COMBINATOR/EXECUTE`). -/
inductive OTag where
  | function
  | combinator
  | execute
deriving DecidableEq, Repr

/-- An Operation's target reference. -/
inductive PtrV where
  | func (id : Nat)
  | prog (objId : Nat) (contents : List Int)
  | nullp
deriving DecidableEq, Repr

/-- An Operation record; `__eq__` ignores `name` (and `meta`). -/
structure POp where
  otype : OTag
  ptr : PtrV
  name : String
deriving DecidableEq, Repr

/-- Python `self.ptr == other.ptr`: identity for callables, deep equality
for list objects, True for None vs None, False across kinds. -/
def pyPtrEq : PtrV → PtrV → Bool
  | .func i, .func j => i = j
  | .prog _ c1, .prog _ c2 => c1 = c2
  | .nullp, .nullp => true
  | _, _ => false

/-- `Operation.__eq__` (types.py:82-83): same tag and `ptr == ptr`. -/
def opEq (x y : POp) : Bool := x.otype = y.otype && pyPtrEq x.ptr y.ptr

/-- Target identity (`is`), what the claim asserts `__eq__` compares. -/
def ptrSameObject : PtrV → PtrV → Bool
  | .func i, .func j => i = j
  | .prog i _, .prog j _ => i = j
  | .nullp, .nullp => true
  | _, _ => false

/-- C10 counterexample to the claim as stated: two Execute operations whose
program lists are distinct objects (identities 0 and 1) with structurally
equal contents compare EQUAL under `Operation.__eq__` — the code compares
`ptr` with `==` (deep equality for lists), not by identity as the claim
asserts. -/
theorem operation_eq_claim_counterexample :
    opEq ⟨.execute, .prog 0 [1], "p"⟩ ⟨.execute, .prog 1 [1], "q"⟩ = true
    ∧ ptrSameObject (PtrV.prog 0 [1]) (PtrV.prog 1 [1]) = false := by
  exact ⟨rfl, rfl⟩

/-- C10 (amended).  `Operation.__eq__` compares the tag and the target
under the host's value equality: Execute operations with program-list
targets compare equal exactly when the list contents are equal (object
identity and display name are ignored), Function operations with callable
targets compare equal exactly when the callables are the same object, and
any equality requires equal tags. -/
theorem operation_eq_spec :
    (∀ (t : OTag) (n1 n2 : String) (i1 i2 : Nat) (c1 c2 : List Int),
      opEq ⟨t, .prog i1 c1, n1⟩ ⟨t, .prog i2 c2, n2⟩ = true ↔ c1 = c2)
    ∧ (∀ (t : OTag) (n1 n2 : String) (i1 i2 : Nat),
      opEq ⟨t, .func i1, n1⟩ ⟨t, .func i2, n2⟩ = true ↔ i1 = i2)
    ∧ (∀ (x y : POp), opEq x y = true → x.otype = y.otype ∧ pyPtrEq x.ptr y.ptr = true) := by
  refine ⟨?_, ?_, ?_⟩
  · intro t n1 n2 i1 i2 c1 c2
    simp [opEq, pyPtrEq]
  · intro t n1 n2 i1 i2
    simp [opEq, pyPtrEq]
  · intro x y h
    simpa [opEq] using h

/-!
### The builtins library tables (builtins.py load_builtins_library)

`load_builtins_library` builds the combinator table as a dict literal whose
values are attributes of the combinators module (`C.comb_i`, ...).  The
entries are modelled as Joy-name/attribute-name pairs next to the list of
attributes the combinators module actually defines, so that a reference to
a missing attribute (an AttributeError at import time) is visible.
-/

/-- The `def comb_*` functions defined in combinators.py (lines 12, 22, 38,
57, 77, 106, 143). -/
def combinators_module_defs : List String :=
  ["comb_i", "comb_dip", "comb_step", "comb_cont", "comb_exec_b",
   "comb_struct", "comb_unstruct"]

/-- The combinator table of builtins.py:17-25: Joy name to the referenced
combinators-module attribute. -/
def builtin_combinator_table : List (String × String) :=
  [("i", "comb_i"), ("dip", "comb_dip"), ("step", "comb_step"),
   ("...", "comb_cont"), ("exec!", "comb_exec_b"), ("struct", "comb_struct"),
   ("destruct", "comb_destruct")]

/-- The alias table of builtins.py:29-33. -/
def builtin_aliases : List (String × String) :=
  [("+", "add"), ("-", "sub"), ("*", "mul"), ("/", "div"), ("%", "rem"),
   (">", "gt"), (">=", "gte"), ("<", "lt"), ("<=", "lte"),
   ("=", "equal?"), ("!=", "differ?"), ("size", "length")]

/-- C2.  The builtins combinator table does register `i`, `dip`, `step` and
`exec!`, but it does NOT register `unstruct`: the struct-exploding entry is
keyed `destruct` and refers to the attribute `comb_destruct`, which the
combinators module does not define (it defines `comb_unstruct`) — so
`load_builtins_library()` raises AttributeError when evaluating the dict
literal, and even under the intended attribute the claim's source
`1 2.5 'MyPair struct unstruct .` could not link `unstruct`. -/
theorem unstruct_not_registered :
    alook "i" builtin_combinator_table = some "comb_i"
    ∧ alook "dip" builtin_combinator_table = some "comb_dip"
    ∧ alook "step" builtin_combinator_table = some "comb_step"
    ∧ alook "exec!" builtin_combinator_table = some "comb_exec_b"
    ∧ alook "struct" builtin_combinator_table = some "comb_struct"
    ∧ alook "unstruct" builtin_combinator_table = none
    ∧ alook "destruct" builtin_combinator_table = some "comb_destruct"
    ∧ ¬ ("comb_destruct" ∈ combinators_module_defs)
    ∧ ("comb_unstruct" ∈ combinators_module_defs) := by
  refine ⟨rfl, rfl, rfl, rfl, rfl, rfl, rfl, by decide, by decide⟩

/-!
### Integer division (operators.py op_div, builtins.py aliases)

Python's true division `b / a`: on two ints it produces a host float (or
raises ZeroDivisionError), a Fraction only when a Fraction operand is
involved (and no float).  The float payload below records the exact
quotient handed to the host float conversion; rounding is not modelled —
the claims here are about the kind of the result, not its rounding.
-/

/-- Additional host errors for the division model. -/
inductive DivErr where
  | zeroDivision
  | typeError
  | stackError
deriving DecidableEq, Repr

/-- A Python bool is an int subclass: arithmetic sees True as 1, False
as 0. -/
def asNum : JVal → JVal
  | .boolv b => .intv (if b then 1 else 0)
  | v => v

/-- Python `b / a` on the numeric tower as used by `op_div` (operators.py:23,
annotated `num = int | float | Fraction`), after bool-to-int subclassing. -/
def pyTrueDivNum : JVal → JVal → Except DivErr JVal
  | .intv b, .intv a =>
    if a = 0 then .error .zeroDivision else .ok (.floatv ((b : Rat) / (a : Rat)))
  | .intv b, .fracv a =>
    if a = 0 then .error .zeroDivision else .ok (.fracv ((b : Rat) / a))
  | .fracv b, .intv a =>
    if a = 0 then .error .zeroDivision else .ok (.fracv (b / (a : Rat)))
  | .fracv b, .fracv a =>
    if a = 0 then .error .zeroDivision else .ok (.fracv (b / a))
  | .floatv b, .floatv a =>
    if a = 0 then .error .zeroDivision else .ok (.floatv (b / a))
  | .floatv b, .intv a =>
    if a = 0 then .error .zeroDivision else .ok (.floatv (b / (a : Rat)))
  | .intv b, .floatv a =>
    if a = 0 then .error .zeroDivision else .ok (.floatv ((b : Rat) / a))
  | .floatv b, .fracv a =>
    if a = 0 then .error .zeroDivision else .ok (.floatv (b / a))
  | .fracv b, .floatv a =>
    if a = 0 then .error .zeroDivision else .ok (.floatv (b / a))
  | _, _ => .error .typeError

def pyTrueDiv (b a : JVal) : Except DivErr JVal := pyTrueDivNum (asNum b) (asNum a)

/-- `op_div` through the library wrapper (`_make_wrapper`, arity 2,
valency 1: `w_2` pops a from the top and b below it, pushes `fn(b, a)`). -/
def op_div (s : StV) : Except DivErr StV :=
  match s with
  | .cell (.cell base b) a => (pyTrueDiv b a).map (fun r => .cell base r)
  | _ => .error .stackError

/-- Is the top of the stack a Fraction? -/
def topIsFrac : StV → Bool
  | .cell _ (.fracv _) => true
  | _ => false

/-- Is the top of the stack a host float? -/
def topIsFloat : StV → Bool
  | .cell _ (.floatv _) => true
  | _ => false

/-- C7 counterexample to the claim as stated: `div` on the integers 1
(below) and 2 (top) pushes the host float 0.5, not the Rational 1/2 —
Python's `b / a` on two ints is float division, and `op_div` never
constructs a Fraction from int operands. -/
theorem op_div_claim_counterexample :
    op_div (.cell (.cell .nil (JVal.intv 1)) (JVal.intv 2))
      = .ok (.cell .nil (JVal.floatv ((1 : Rat) / 2)))
    ∧ ¬ (op_div (.cell (.cell .nil (JVal.intv 1)) (JVal.intv 2))
      = .ok (.cell .nil (JVal.fracv ((1 : Rat) / 2)))) := by
  constructor
  · rfl
  · intro h
    have h1 : op_div (.cell (.cell .nil (JVal.intv 1)) (JVal.intv 2))
        = .ok (.cell .nil (JVal.floatv ((1 : Rat) / 2))) := rfl
    rw [h1] at h
    injection h with h2
    injection h2 with h3 h4
    cases h4

/-- C7 (amended).  For all integers b (below) and a (top) with a nonzero,
`div` — also reachable through the `/` alias, see `builtin_aliases` —
pushes the host floating-point quotient of b by a onto the remaining
stack: the result is a float, never a Rational. -/
theorem op_div_int_spec (b a : Int) (S : StV) (h : a ≠ 0) :
    op_div (.cell (.cell S (JVal.intv b)) (JVal.intv a))
      = .ok (.cell S (JVal.floatv ((b : Rat) / (a : Rat))))
    ∧ topIsFloat (.cell S (JVal.floatv ((b : Rat) / (a : Rat)))) = true
    ∧ topIsFrac (.cell S (JVal.floatv ((b : Rat) / (a : Rat)))) = false
    ∧ alook "/" builtin_aliases = some "div" := by
  refine ⟨?_, rfl, rfl, rfl⟩
  simp [op_div, pyTrueDiv, pyTrueDivNum, asNum, h, Except.map]

/-- Witness for C7 at b = 1, a = 2 over the empty stack. -/
theorem op_div_int_spec_witness :
    (2 : Int) ≠ 0
    ∧ op_div (.cell (.cell .nil (JVal.intv 1)) (JVal.intv 2))
        = .ok (.cell .nil (JVal.floatv ((1 : Rat) / (2 : Rat)))) :=
  ⟨by decide, (op_div_int_spec 1 2 .nil (by decide)).1⟩

/-!
### The exec! combinator (combinators.py comb_exec_b, interpreter.py interpret)

`comb_exec_b` evaluates the quotation with
`interpret(head, stack=None, lib=lib, validate=True)` (combinators.py:92).
`interpret` (interpreter.py:85) has parameters
`(program, stack, library, verbosity, validate, stats)` — there is no `lib`
parameter.  Python keyword binding therefore fails before the callee's
body runs, raising `TypeError: interpret() got an unexpected keyword
argument 'lib'`; a host TypeError is not a JoyError, so the
`except JoyError` clause of comb_exec_b does not catch it.
-/

/-- The parameter names of `interpret` (interpreter.py:85). -/
def interpret_params : List String :=
  ["program", "stack", "library", "verbosity", "validate", "stats"]

/-- The keyword arguments of the `interpret(...)` call in comb_exec_b
(combinators.py:92). -/
def exec_b_call_kwargs : List String := ["stack", "lib", "validate"]

/-- Python call binding: every keyword argument must name a parameter. -/
def kwargs_bind (kwargs params : List String) : Bool :=
  kwargs.all (fun k => params.contains k)

/-- The keyword `lib` does not bind to any parameter of `interpret`. -/
theorem exec_call_kwargs_do_not_bind :
    kwargs_bind exec_b_call_kwargs interpret_params = false := rfl

/-- The `interpret(head, stack=None, lib=lib, validate=True)` call of
comb_exec_b: keyword binding fails (`exec_call_kwargs_do_not_bind`), so the
call raises a host TypeError before interpret's body runs, for every
quotation. -/
def call_interpret (_q : List JVal) : Except PyErr StV := .error .hostTypeError

/-- stack_to_list (formatting.py:9-21): the stack as a top-first list. -/
def stack_to_list : StV → List JVal
  | .nil => []
  | .cell tail head => head :: stack_to_list tail

/-- `comb_exec_b` (combinators.py:77-97): require a quotation on top; run it
on a fresh stack via `call_interpret`; on success push the result stack as
a list then True; on a caught JoyError push the error value then False;
any other exception propagates to the caller. -/
def comb_exec_b : StV → Except PyErr StV
  | .nil => .error .joyStackError
  | .cell tail head =>
    match head with
    | .listv q =>
      match call_interpret q with
      | .ok result =>
        .ok (.cell (.cell tail (.listv (stack_to_list result))) (.boolv true))
      | .error e =>
        if isJoyError e then .ok (.cell (.cell tail (.errv e)) (.boolv false))
        else .error e
    | _ => .error .joyStackError

/-- C1.  `exec!` does NOT satisfy the claimed totality: for every quotation
Q and every stack S with Q on top, comb_exec_b propagates a host TypeError
(the inner `interpret` call passes the keyword `lib`, which interpret does
not accept) instead of returning push(flag, push(payload, S)).  The first
conjunct evaluates the code at the spec's own example `[ 1 2 + ] exec!`. -/
theorem exec_b_propagates :
    comb_exec_b (.cell .nil (JVal.listv [JVal.intv 1, JVal.intv 2, JVal.opv .add]))
      = .error .hostTypeError
    ∧ ∀ (q : List JVal) (S : StV),
        comb_exec_b (.cell S (.listv q)) = .error .hostTypeError := by
  refine ⟨rfl, ?_⟩
  intro q S
  rfl

/-!
### Pre-step validation (interpreter.py can_execute / interpret, lines 18-102)

interpreter.py in this revision works on plain tuple stacks (`tuple()` as
the empty stack, `(stack, op)` cells).  When a validation check of the
front operation fails, `interpret` prints a TYPE ERROR banner to stderr and
executes `break` — it returns the current stack normally and raises
nothing.  For Function operations, `can_execute` itself calls
`get_stack_effects(name=op.name)` (interpreter.py:37), but
`get_stack_effects` (loader.py:106) takes `fn` as a required keyword-only
parameter, so the call raises a bare host TypeError (missing required
argument) outside the interpreter's try block.  Combinator invocation is
also broken in this revision (`op.ptr(op, program, *stack,
library=library)` against combinators taking `(this, queue, stack, lib)`),
but that exception is swallowed by the blanket `except Exception`, which
prints and returns None.
-/

/-- Operation tags occurring in the validation paths of the claim (Execute
operations always pass validation — `can_execute` falls through to True
for them — so they are not modelled here). -/
inductive TTag where
  | function
  | combinator
deriving DecidableEq, Repr

/-- An Operation as seen by can_execute: its tag and display name. -/
structure TOp where
  ttag : TTag
  name : String
deriving DecidableEq, Repr

/-- The tuple-based stack of this interpreter revision: `tuple()` when
empty, nested pairs `(tail, head)` otherwise. -/
inductive TStack where
  | empty
  | cell (tail : TStack) (head : JVal)

/-- A program queue item: a literal value or an Operation. -/
inductive TItem where
  | val (v : JVal)
  | op (o : TOp)

/-- Python `head == 0` for the div-by-zero guard (False == 0 and 0.0 == 0
are True in Python). -/
def headIsZero : JVal → Bool
  | .intv n => n = 0
  | .boolv b => b = false
  | .floatv q => q = 0
  | .fracv q => q = 0
  | _ => false

/-- Is the value a list/tuple (the quotation check of can_execute)? -/
def isListVal : JVal → Bool
  | .listv _ => true
  | _ => false

/-- `can_execute` (interpreter.py:18-60).  For the combinators `i`/`dip`:
require a non-empty stack with a quotation on top.  For the div family:
reject a zero divisor.  Other non-Function operations pass.  For Function
operations the code then calls `get_stack_effects(name=op.name)`, which
raises a host TypeError: loader.py's `get_stack_effects(*, fn, name=None)`
requires the keyword `fn` that the call does not pass. -/
def divZeroGuard : TStack → Bool
  | .empty => false
  | .cell _ head => headIsZero head

def can_execute (o : TOp) (stack : TStack) : Except PyErr (Bool × String) :=
  if o.ttag = .combinator ∧ (o.name = "i" ∨ o.name = "dip") then
    match stack with
    | .empty => .ok (false, "needs at least 1 item on the stack")
    | .cell _ head =>
      if isListVal head then .ok (true, "")
      else .ok (false, "requires a quotation as list as top item")
  else if (o.name = "div" ∨ o.name = "/") ∧ divZeroGuard stack = true then
    .ok (false, "would divide by zero")
  else if o.ttag ≠ .function then
    .ok (true, "")
  else
    .error .hostTypeError

/-- The `interpret` loop with validation enabled (interpreter.py:94-111).
A literal front item is pushed.  For an Operation, `can_execute` runs
OUTSIDE the try block: an exception it raises propagates out of interpret;
a failed check prints a TYPE ERROR banner and breaks, returning the
current stack normally (`.ok (some stack)`); a passed check dispatches
inside the try block, where this revision's combinator call convention
mismatch raises a TypeError that the blanket `except Exception` swallows,
printing a RUNTIME ERROR banner and returning None (`.ok none`). -/
def interpret_validate : List TItem → TStack → Except PyErr (Option TStack)
  | [], s => .ok (some s)
  | .val v :: rest, s => interpret_validate rest (.cell s v)
  | .op o :: _, s =>
    match can_execute o s with
    | .error e => .error e
    | .ok (false, _) => .ok (some s)
    | .ok (true, _) => .ok none

/-- C3.  Validation failures do NOT raise the claimed stack error: `i` on
an empty stack and a zero divisor for `div` make the interpreter print and
break, returning the unchanged stack with no exception; and for any
Function operation (here `length` on a well-typed stack) the checker
itself crashes with a bare host TypeError (get_stack_effects is missing
its required `fn` argument) — not a JoyStackError annotated with the
operation, token and stack snapshot. -/
theorem validation_failure_does_not_raise :
    interpret_validate [TItem.op ⟨.combinator, "i"⟩] TStack.empty
      = .ok (some TStack.empty)
    ∧ interpret_validate [TItem.op ⟨.function, "div"⟩]
        (TStack.cell (TStack.cell .empty (JVal.intv 1)) (JVal.intv 0))
      = .ok (some (TStack.cell (TStack.cell .empty (JVal.intv 1)) (JVal.intv 0)))
    ∧ interpret_validate [TItem.op ⟨.combinator, "i"⟩]
        (TStack.cell .empty (JVal.intv 5))
      = .ok (some (TStack.cell .empty (JVal.intv 5)))
    ∧ interpret_validate [TItem.op ⟨.function, "length"⟩]
        (TStack.cell .empty (JVal.listv []))
      = .error .hostTypeError := by
  exact ⟨rfl, rfl, rfl, rfl⟩

/-!
### The step combinator through this revision's interpreter

`comb_step` itself (modelled above on `StV`) pops the quotation and the
list and reports the claim's five queue items.  But the interpreter of
this revision never gets that far: `interpret_step` (interpreter.py:78)
invokes every combinator as `op.ptr(op, program, *stack, library=library)`
while the combinators of combinators.py all have the signature
`(this, queue, stack, lib)` — four positionals bind, then the keyword
`library` does not name a parameter, so the call raises a TypeError.  The
exception is raised inside interpret's try block and the blanket
`except Exception` (interpreter.py:118-124) catches it, prints a RUNTIME
ERROR banner, and makes `interpret` return None.  (The old-revision
combinators in the repository's top-level joyfl.py, signature
`(this, queue, *stack, library={})`, are what this call convention fits.)
-/

/-- The parameters of every combinator in combinators.py (e.g.
`comb_step(this, queue, stack, lib)`, combinators.py:38): no `library`
parameter, no keyword catch-all. -/
def comb_params : List String := ["this", "queue", "stack", "lib"]

/-- The keyword arguments of the combinator invocation at
interpreter.py:78, `op.ptr(op, program, *stack, library=library)`. -/
def comb_call_kwargs : List String := ["library"]

/-- The keyword `library` does not bind to any combinator parameter. -/
theorem comb_call_kwargs_do_not_bind :
    kwargs_bind comb_call_kwargs comb_params = false := rfl

/-- The `interpret` loop with validation off (interpreter.py:94-124,
skipping the validate block).  A literal front item is pushed.  A Function
operation is dispatched as `stack = op.ptr(stack)` and the loop continues:
the wrapped callables accept the tuple stack, and their behaviour is
abstracted by the supplied `fsem` — the theorems below hold for every
`fsem`.  A Combinator operation is invoked with the keyword `library`,
which no combinator accepts (`comb_call_kwargs_do_not_bind`): the
TypeError is caught by the blanket `except Exception`, which prints and
returns None.  Execute operations and the bytes ABORT/BREAK sentinels do
not occur in the claim's programs and are outside this fragment. -/
def interpret_novalidate (fsem : TOp → TStack → TStack) :
    List TItem → TStack → Option TStack
  | [], s => some s
  | .val v :: rest, s => interpret_novalidate fsem rest (.cell s v)
  | .op o :: rest, s =>
    match o.ttag with
    | .combinator => none
    | .function => interpret_novalidate fsem rest (fsem o s)

/-- C4.  The first conjunct is what `comb_step` itself does, and it matches
the claim's description exactly: pop the quotation and the list, return S,
and report for the queue — nothing when L is empty, otherwise head-of-L,
Q's contents, tail-of-L, Q, and the step operation itself.  But the
interpreter of this revision can never deliver that behaviour: dispatching
`step` (or any combinator) raises a swallowed TypeError and `interpret`
returns None — for every function-dispatch semantics, every remaining
queue, and every stack; the last conjunct evaluates this at the spec's own
scenario `0 [1 2 3] [+] step .`.  Neither the claimed queue prepend nor
the distributivity over the list ever happens through the interpreter. -/
theorem step_never_dispatches :
    (∀ (Q L : List JVal) (S : StV),
      comb_step (.cell (.cell S (.listv L)) (.listv Q)) =
        .ok ((match L with
              | [] => ([] : List JVal)
              | v :: vt => v :: (Q ++ [.listv vt, .listv Q, .opv .step])), S))
    ∧ (∀ (fsem : TOp → TStack → TStack) (rest : List TItem) (s : TStack),
        interpret_novalidate fsem (.op ⟨.combinator, "step"⟩ :: rest) s = none)
    ∧ interpret_novalidate (fun _ s => s) [.op ⟨.combinator, "step"⟩]
        (TStack.cell (TStack.cell (TStack.cell .empty (JVal.intv 0))
          (JVal.listv [JVal.intv 1, JVal.intv 2, JVal.intv 3]))
          (JVal.listv [JVal.opv .add]))
      = none := by
  refine ⟨?_, ?_, rfl⟩
  · intro Q L S
    cases L <;> rfl
  · intro fsem rest s
    rfl

/-!
### The nil singleton (types.py Stack, interpreter.py interpret)

types.py enforces a single empty-stack object: after module initialisation
has run `nil = Stack(None, None)` (types.py:65), any further
`Stack(None, None)` raises ValueError, and `bool(stack)` raises TypeError.
interpreter.py:86 however initialises a missing stack as `tuple()` — a
plain empty tuple, a different object from `nil` — so `() is nil` is
False.  Object identity is modelled by constructor: `stackNil` IS the
singleton; an empty tuple is a distinct constructor.
-/

/-- Empty-stack-like host objects. -/
inductive NObj where
  | stackNil
  | stackCell (tail : Option NObj) (head : Option JVal)
  | emptyTuple

/-- `Stack.__new__` (types.py:17-26) in the steady state where the class
attribute `_nil_singleton` is already set by `nil = Stack(None, None)` at
types.py:65: both arguments None raises ValueError (\"Use the canonical
nil instance\"), anything else builds an ordinary cell. -/
def stack_new : Option NObj → Option JVal → Except PyErr NObj
  | none, none => .error .valueError
  | tail, head => .ok (.stackCell tail head)

/-- `Stack.__bool__` (types.py:40-41) raises TypeError; a plain tuple has
ordinary truthiness. -/
def stack_bool : NObj → Except PyErr Bool
  | .stackNil => .error .hostTypeError
  | .stackCell _ _ => .error .hostTypeError
  | .emptyTuple => .ok false

/-- Identity with the nil singleton (`stack is nil`). -/
def is_nil : NObj → Bool
  | .stackNil => true
  | _ => false

/-- `stack = tuple() if stack is None else stack` (interpreter.py:86). -/
def interpret_init : Option NObj → NObj
  | none => .emptyTuple
  | some s => s

/-- C8.  The singleton parts of the claim hold — a second
`Stack(None, None)` is rejected with ValueError and truthiness testing
raises TypeError — but the interpreter started with no initial stack does
NOT use the nil identity: it builds a fresh empty tuple, which is a
different object (`is nil` is False on it). -/
theorem nil_identity_facts :
    stack_new none none = .error .valueError
    ∧ stack_bool .stackNil = .error .hostTypeError
    ∧ stack_bool (.stackCell (some .stackNil) (some (JVal.intv 1)))
        = .error .hostTypeError
    ∧ interpret_init none = .emptyTuple
    ∧ is_nil (interpret_init none) = false
    ∧ is_nil .stackNil = true := by
  exact ⟨rfl, rfl, rfl, rfl, rfl, rfl⟩

end Joyfl
